import Mathlib

/-!
Verification of the DID identifier type (lib/rucio/common/didtype.py).

The embedding models Python strings as lists of characters (`PyStr`).
A DID object is a pair of slots `scope` and `name` (`DIDState`).  The
constructor pipeline of the source is translated function by function:

* `splitFirst c s` models `s.split(c, 1)`: `none` when `c` is absent,
  otherwise the text before the first occurrence and everything after it.
* `splitAll c s` models `s.split(c)` with no limit (always a non-empty
  list of pieces, `[[]]` for the empty string, matching Python).
* `joinChar c l` models `c.join(l)` for a one-character separator.
* `IMPLICIT_SCOPE_TO_LEN` models the static table
  `IMPLICIT_SCOPE_TO_LEN = ...user: 2, group: 2...` read through
  `dict.get(key, 0)`.
* `update_implicit_scope`, `did_from_str`, `did_from_dict`,
  `did_from_list_or_tuple`, `did_from_did_object`, `is_valid_format`,
  `has_scope`, `has_name`, `did_str` (for `DID.__str__`) and `did_eq`
  (for `DID.__eq__` between two DID objects) each embed the source
  method of the same name.
* `construct_dispatch` is the `if isinstance` chain of `_construct_did`;
  `construct_did` is `_construct_did` including its final
  trailing-slash strip; `DID.init` is `__init__` after argument
  normalisation: construct, then validate, raising `DIDError`
  (modelled as `Except.error`) on invalid format.

Inputs are the closed variant `DIDInput` (mapping, list or tuple,
string, DID object); the mapping carries the optional `scope` and
`name` keys (`DIDDict`), which is all `_did_from_dict` reads.
-/

/-- Python strings are modelled as lists of characters. -/
abbrev PyStr := List Char

/-- The class constant DID.SCOPE_SEPARATOR. -/
def scopeSep : Char := ':'

/-- The class constant DID.IMPLICIT_SCOPE_SEPARATOR. -/
def implicitSep : Char := '.'

/-- The static table DID.IMPLICIT_SCOPE_TO_LEN read through dict.get
with default 0: the user and group kinds each consume two leading
segments; every other first segment is unrecognised. -/
def IMPLICIT_SCOPE_TO_LEN (s : PyStr) : Nat :=
  if s = "user".data then 2 else if s = "group".data then 2 else 0

/-- Python s.split(c, 1): `none` when c does not occur in s, otherwise
the pair of the text before the first occurrence and everything after
it. -/
def splitFirst (c : Char) : PyStr → Option (PyStr × PyStr)
  | [] => none
  | x :: xs =>
      if x = c then some ([], xs)
      else
        match splitFirst c xs with
        | none => none
        | some p => some (x :: p.1, p.2)

/-- Python s.split(c) with no limit: the result is never empty, and the
empty string splits to a single empty piece, as in Python. -/
def splitAll (c : Char) : PyStr → List PyStr
  | [] => [[]]
  | x :: xs =>
      if x = c then [] :: splitAll c xs
      else
        match splitAll c xs with
        | [] => [[x]]
        | a :: tl => (x :: a) :: tl

/-- Python c.join(l) for a one-character separator c. -/
def joinChar (c : Char) : List PyStr → PyStr
  | [] => []
  | [x] => x
  | x :: y :: t => x ++ c :: joinChar c (y :: t)

/-- The two slots of a DID object. -/
structure DIDState where
  scope : PyStr
  name : PyStr
deriving DecidableEq

/-- DID.has_scope: the scope slot is a non-empty string. -/
def has_scope (d : DIDState) : Bool := !d.scope.isEmpty

/-- DID.has_name: the name slot is a non-empty string. -/
def has_name (d : DIDState) : Bool := !d.name.isEmpty

/-- DID._update_implicit_scope: split the name on the implicit-scope
separator, look the first segment up in the static table, and when the
count is positive set scope to the dot-join of the Python slice
`did_parts[0:num_scope_parts]` (List.take has the same clamping
behaviour as the slice). The name is never modified. -/
def update_implicit_scope (d : DIDState) : DIDState :=
  if 0 < IMPLICIT_SCOPE_TO_LEN ((splitAll implicitSep d.name).headD []) then
    { d with
        scope := joinChar implicitSep
          ((splitAll implicitSep d.name).take
            (IMPLICIT_SCOPE_TO_LEN ((splitAll implicitSep d.name).headD []))) }
  else d

/-- DID._did_from_str: split once on the scope separator; with no
separator the whole string becomes the name, implicit-scope resolution
runs, and a missing scope raises DIDError; otherwise the text before
the first separator is the scope and everything after it the name. -/
def did_from_str (d : DIDState) (s : PyStr) : Except String DIDState :=
  match splitFirst scopeSep s with
  | none =>
      if has_scope (update_implicit_scope { d with name := s }) then
        Except.ok (update_implicit_scope { d with name := s })
      else Except.error "Object construction from non-splitable string is ambigious"
  | some p => Except.ok { d with scope := p.1, name := p.2 }

/-- The optional `scope` and `name` keys of a mapping input, the only
keys DID._did_from_dict reads. A `none` field is an absent key. -/
structure DIDDict where
  scopeVal : Option PyStr
  nameVal : Option PyStr
deriving DecidableEq

/-- DID._did_from_dict: read the two keys with empty-string defaults,
then run implicit-scope resolution when has_scope is false. -/
def did_from_dict (d : DIDState) (m : DIDDict) : DIDState :=
  if has_scope { d with scope := m.scopeVal.getD [], name := m.nameVal.getD [] } then
    { d with scope := m.scopeVal.getD [], name := m.nameVal.getD [] }
  else
    update_implicit_scope { d with scope := m.scopeVal.getD [], name := m.nameVal.getD [] }

/-- DID._did_from_list_or_tuple: exactly two elements, first the scope,
second the name; any other length raises DIDError. -/
def did_from_list_or_tuple (d : DIDState) (l : List PyStr) : Except String DIDState :=
  match l with
  | [a, b] => Except.ok { d with scope := a, name := b }
  | _ => Except.error "Construction from tuple or list requires exactly 2 elements"

/-- DID._did_from_did_object: copy scope and name from the other DID. -/
def did_from_did_object (d : DIDState) (o : DIDState) : DIDState :=
  { d with scope := o.scope, name := o.name }

/-- The closed set of input shapes DID._construct_did dispatches on:
mapping, list or tuple, string, or an existing DID object. -/
inductive DIDInput where
  | dict (m : DIDDict)
  | pair (l : List PyStr)
  | str (s : PyStr)
  | did (o : DIDState)

/-- Python s.endswith(c) for a one-character suffix c. -/
def endsWithChar (c : Char) (s : PyStr) : Bool := s.getLast? == some c

/-- The trailing-slash normalisation at the end of DID._construct_did:
when the name ends with a slash, drop exactly that one character. -/
def strip_trailing_slash (s : PyStr) : PyStr :=
  if endsWithChar '/' s then s.dropLast else s

/-- The isinstance dispatch chain of DID._construct_did, before the
trailing-slash strip. -/
def construct_dispatch (d : DIDState) (i : DIDInput) : Except String DIDState :=
  match i with
  | .dict m => Except.ok (did_from_dict d m)
  | .pair l => did_from_list_or_tuple d l
  | .str s => did_from_str d s
  | .did o => Except.ok (did_from_did_object d o)

/-- DID._construct_did: dispatch on the input shape, then strip one
trailing slash from the resulting name. -/
def construct_did (d : DIDState) (i : DIDInput) : Except String DIDState :=
  match construct_dispatch d i with
  | Except.error e => Except.error e
  | Except.ok d1 => Except.ok { d1 with name := strip_trailing_slash d1.name }

/-- DID.is_valid_format: neither slot may contain the scope separator
(the source tests the two character counts for truthiness). -/
def is_valid_format (d : DIDState) : Bool :=
  d.scope.count scopeSep == 0 && d.name.count scopeSep == 0

/-- DID.__init__ after argument normalisation: start from two empty
slots, construct from the normalised input, then raise DIDError when
the result fails is_valid_format. -/
def DID.init (i : DIDInput) : Except String DIDState :=
  match construct_did ⟨[], []⟩ i with
  | Except.error e => Except.error e
  | Except.ok d =>
      if is_valid_format d then Except.ok d
      else Except.error "Object has invalid format after construction"

/-- Discriminator for a successful construction. -/
def isOkD : Except String DIDState → Bool
  | Except.ok _ => true
  | Except.error _ => false

/-- DID.__str__: scope, separator, name when both slots are non-empty;
otherwise the single non-empty slot (or the empty string). -/
def did_str (d : DIDState) : PyStr :=
  if has_scope d && has_name d then d.scope ++ scopeSep :: d.name
  else if has_scope d then d.scope
  else d.name

/-- DID.__eq__ between two DID objects: both slots must agree. -/
def did_eq (a b : DIDState) : Bool := a.scope == b.scope && a.name == b.name

/-- DID.__eq__ against a raw string: compare the canonical rendering of
self with the other string. -/
def did_eq_str (a : DIDState) (s : PyStr) : Bool := did_str a == s

/-- Stand-in for the CPython string hash: a fixed deterministic
function of the character list. The property the source relies on is
only that equal strings hash equally, which holds for any function of
the string. -/
def str_hash (s : PyStr) : Nat :=
  s.foldl (fun h c => (h * 1000003 + c.toNat) % (2 ^ 64)) 5381

/-- DID.__hash__: hash of the canonical string rendering of self. -/
def did_hash (d : DIDState) : Nat := str_hash (did_str d)

/-- Lines 98 and 99 of DID._parse_did_from_args: with zero positional
arguments the logical input is kwargs.get(did, kwargs), that is the
value of the keyword `did` when present and otherwise the keyword
mapping itself, here restricted to its `scope` and `name` keys, the
only keys the dictionary path reads. -/
def parse_args_zero_positional (didKw : Option DIDInput) (kwargs : DIDDict) : DIDInput :=
  match didKw with
  | some v => v
  | none => DIDInput.dict kwargs

/-- A list is isEmpty exactly when it is nil. -/
theorem isEmpty_eq_true_iff (l : PyStr) : l.isEmpty = true ↔ l = [] := by
  cases l <;> simp

/-- has_scope is true exactly when the scope slot is non-empty. -/
theorem has_scope_eq_true_iff (d : DIDState) : has_scope d = true ↔ d.scope ≠ [] := by
  cases h : d.scope <;> simp [has_scope, h]

/-- has_scope is false exactly when the scope slot is empty. -/
theorem has_scope_eq_false_iff (d : DIDState) : has_scope d = false ↔ d.scope = [] := by
  cases h : d.scope <;> simp [has_scope, h]

/-- has_name is true exactly when the name slot is non-empty. -/
theorem has_name_eq_true_iff (d : DIDState) : has_name d = true ↔ d.name ≠ [] := by
  cases h : d.name <;> simp [has_name, h]

/-- is_valid_format holds exactly when neither slot contains the scope
separator. -/
theorem is_valid_format_eq_true_iff (d : DIDState) :
    is_valid_format d = true ↔ scopeSep ∉ d.scope ∧ scopeSep ∉ d.name := by
  simp [is_valid_format, List.count_eq_zero]

/-- splitFirst returns none exactly when the separator is absent. -/
theorem splitFirst_eq_none_iff (c : Char) (s : PyStr) :
    splitFirst c s = none ↔ c ∉ s := by
  induction s with
  | nil => simp [splitFirst]
  | cons x xs ih =>
      by_cases hx : x = c
      · subst hx
        simp [splitFirst]
      · rw [splitFirst, if_neg hx]
        cases h : splitFirst c xs with
        | none =>
            have hxs : c ∉ xs := ih.mp h
            have hcx : ¬ c = x := fun e => hx e.symm
            simp [List.mem_cons, hxs, hcx]
        | some p =>
            have hxs : c ∈ xs := by
              by_contra hc
              rw [← ih] at hc
              rw [h] at hc
              exact Option.some_ne_none p hc
            simp [List.mem_cons, hxs]

/-- splitFirst splits at the first occurrence of the separator. -/
theorem splitFirst_append (c : Char) (a b : PyStr) (h : c ∉ a) :
    splitFirst c (a ++ c :: b) = some (a, b) := by
  induction a with
  | nil => simp [splitFirst]
  | cons x xs ih =>
      have hx : ¬ x = c := by
        rintro rfl
        exact h (List.mem_cons_self x xs)
      have hxs : c ∉ xs := fun m => h (List.mem_cons_of_mem x m)
      rw [List.cons_append, splitFirst, if_neg hx, ih hxs]

/-- splitAll never returns an empty list of pieces. -/
theorem splitAll_ne_nil (c : Char) (s : PyStr) : splitAll c s ≠ [] := by
  induction s with
  | nil => simp [splitAll]
  | cons x xs ih =>
      by_cases hx : x = c
      · rw [splitAll, if_pos hx]
        simp
      · rw [splitAll, if_neg hx]
        cases h : splitAll c xs with
        | nil => simp
        | cons a tl => simp

/-- Characters of any piece of splitAll come from the split string. -/
theorem mem_of_mem_splitAll (c d : Char) (s : PyStr) :
    ∀ piece, piece ∈ splitAll c s → d ∈ piece → d ∈ s := by
  induction s with
  | nil =>
      intro piece hp hd
      simp [splitAll] at hp
      subst hp
      simp at hd
  | cons x xs ih =>
      intro piece hp hd
      by_cases hx : x = c
      · rw [splitAll, if_pos hx] at hp
        rcases List.mem_cons.mp hp with h | h
        · subst h
          simp at hd
        · exact List.mem_cons_of_mem x (ih piece h hd)
      · rw [splitAll, if_neg hx] at hp
        cases h : splitAll c xs with
        | nil => exact absurd h (splitAll_ne_nil c xs)
        | cons a tl =>
            rw [h] at hp
            rcases List.mem_cons.mp hp with h1 | h1
            · subst h1
              rcases List.mem_cons.mp hd with h2 | h2
              · subst h2
                exact List.mem_cons_self d xs
              · have ha : a ∈ splitAll c xs := by
                  rw [h]
                  exact List.mem_cons_self a tl
                exact List.mem_cons_of_mem x (ih a ha h2)
            · have hpm : piece ∈ splitAll c xs := by
                rw [h]
                exact List.mem_cons_of_mem a h1
              exact List.mem_cons_of_mem x (ih piece hpm hd)

/-- Characters of a joinChar result are the separator or come from one
of the joined pieces. -/
theorem mem_joinChar (c d : Char) (l : List PyStr)
    (hd : d ∈ joinChar c l) : d = c ∨ ∃ p ∈ l, d ∈ p := by
  induction l with
  | nil => simp [joinChar] at hd
  | cons x xs ih =>
      cases xs with
      | nil =>
          rw [joinChar] at hd
          exact Or.inr ⟨x, List.mem_cons_self x [], hd⟩
      | cons y t =>
          rw [joinChar] at hd
          rcases List.mem_append.mp hd with h | h
          · exact Or.inr ⟨x, List.mem_cons_self x (y :: t), h⟩
          · rcases List.mem_cons.mp h with h1 | h1
            · exact Or.inl h1
            · rcases ih h1 with h2 | ⟨p, hp, hdp⟩
              · exact Or.inl h2
              · exact Or.inr ⟨p, List.mem_cons_of_mem x hp, hdp⟩

/-- Implicit-scope resolution never changes the name slot. -/
theorem update_implicit_scope_name (d : DIDState) :
    (update_implicit_scope d).name = d.name := by
  unfold update_implicit_scope
  split <;> rfl

/-- Implicit-scope resolution cannot introduce the scope separator into
the scope slot: the new scope is built from dots and characters of the
name. -/
theorem update_implicit_scope_scope_no_sep (d : DIDState)
    (hn : scopeSep ∉ d.name) (hs : scopeSep ∉ d.scope) :
    scopeSep ∉ (update_implicit_scope d).scope := by
  unfold update_implicit_scope
  split
  · intro hmem
    simp only at hmem
    rcases mem_joinChar implicitSep scopeSep _ hmem with h | ⟨p, hp, hdp⟩
    · exact absurd h (by decide)
    · have hps : p ∈ splitAll implicitSep d.name :=
        List.take_subset _ _ hp
      exact hn (mem_of_mem_splitAll implicitSep scopeSep d.name p hps hdp)
  · exact hs

/-- Stripping the trailing slash cannot introduce new characters. -/
theorem mem_strip_trailing_slash (s : PyStr) (d : Char)
    (h : d ∈ strip_trailing_slash s) : d ∈ s := by
  unfold strip_trailing_slash at h
  split at h
  · exact (List.dropLast_sublist s).subset h
  · exact h

/-- Appending a slash and stripping gives the string back. -/
theorem strip_trailing_slash_concat (s : PyStr) :
    strip_trailing_slash (s ++ ['/']) = s := by
  unfold strip_trailing_slash endsWithChar
  rw [List.getLast?_concat]
  simp [List.dropLast_concat]

/-- Stripping is the identity on strings not ending in a slash. -/
theorem strip_trailing_slash_of_not_ends (s : PyStr)
    (h : endsWithChar '/' s = false) : strip_trailing_slash s = s := by
  simp [strip_trailing_slash, h]

/-- Successful construction is exactly a successful dispatch-and-strip
followed by a passed validity check. -/
theorem init_eq_ok_iff (i : DIDInput) (d : DIDState) :
    DID.init i = Except.ok d ↔
      construct_did ⟨[], []⟩ i = Except.ok d ∧ is_valid_format d = true := by
  unfold DID.init
  cases hc : construct_did ⟨[], []⟩ i with
  | error e =>
      constructor
      · intro h
        simp at h
      · rintro ⟨h, _⟩
        exact absurd h (by simp)
  | ok d1 =>
      show (if is_valid_format d1 = true then Except.ok d1
            else (Except.error "Object has invalid format after construction" :
              Except String DIDState)) = Except.ok d ↔
          Except.ok d1 = Except.ok d ∧ is_valid_format d = true
      by_cases hv : is_valid_format d1 = true
      · rw [if_pos hv]
        constructor
        · intro h
          injection h with h
          subst h
          exact ⟨rfl, hv⟩
        · rintro ⟨h, _⟩
          injection h with h
          rw [h]
      · rw [if_neg hv]
        constructor
        · intro h
          simp at h
        · rintro ⟨h, hvd⟩
          injection h with h
          subst h
          exact absurd hvd hv

/-- A successfully constructed DID carries no scope separator in either
slot. -/
theorem valid_of_init {i : DIDInput} {d : DIDState}
    (h : DID.init i = Except.ok d) :
    scopeSep ∉ d.scope ∧ scopeSep ∉ d.name :=
  (is_valid_format_eq_true_iff d).mp ((init_eq_ok_iff i d).mp h).2

/-- The canonical rendering of a DID with an empty name is its scope. -/
theorem did_str_of_name_nil (d : DIDState) (h : d.name = []) :
    did_str d = d.scope := by
  by_cases hs : d.scope = []
  · simp [did_str, has_scope, has_name, h, hs]
  · cases hsc : d.scope with
    | nil => exact absurd hsc hs
    | cons a l => simp [did_str, has_scope, has_name, h, hsc]

/-- The canonical rendering of a DID with an empty scope is its name. -/
theorem did_str_of_scope_nil (d : DIDState) (h : d.scope = []) :
    did_str d = d.name := by
  simp [did_str, has_scope, h]

/-- The canonical rendering of a DID with two non-empty slots is scope,
separator, name. -/
theorem did_str_both (d : DIDState) (hs : d.scope ≠ []) (hn : d.name ≠ []) :
    did_str d = d.scope ++ scopeSep :: d.name := by
  have h1 : has_scope d = true := (has_scope_eq_true_iff d).mpr hs
  have h2 : has_name d = true := (has_name_eq_true_iff d).mpr hn
  simp [did_str, h1, h2]

/-- Renderings of the scope-separator form are injective when neither
scope contains the separator. -/
theorem append_sep_inj {s1 n1 s2 n2 : PyStr}
    (h1 : scopeSep ∉ s1) (h2 : scopeSep ∉ s2)
    (h : s1 ++ scopeSep :: n1 = s2 ++ scopeSep :: n2) : s1 = s2 ∧ n1 = n2 := by
  have e1 := splitFirst_append scopeSep s1 n1 h1
  have e2 := splitFirst_append scopeSep s2 n2 h2
  rw [h, e2] at e1
  injection e1 with e1
  exact ⟨(congrArg Prod.fst e1).symm, (congrArg Prod.snd e1).symm⟩

/-- DID equality holds exactly when both slots agree. -/
theorem did_eq_eq_true_iff (a b : DIDState) :
    did_eq a b = true ↔ a.scope = b.scope ∧ a.name = b.name := by
  simp [did_eq]

/-- Construction applies the trailing-slash strip to the dispatched
state. -/
theorem construct_did_of_dispatch {i : DIDInput} {d0 : DIDState}
    (h : construct_dispatch ⟨[], []⟩ i = Except.ok d0) :
    construct_did ⟨[], []⟩ i = Except.ok ⟨d0.scope, strip_trailing_slash d0.name⟩ := by
  unfold construct_did
  rw [h]

/-- Construction propagates dispatch errors unchanged. -/
theorem construct_did_of_dispatch_error {i : DIDInput} {e : String}
    (h : construct_dispatch ⟨[], []⟩ i = Except.error e) :
    construct_did ⟨[], []⟩ i = Except.error e := by
  unfold construct_did
  rw [h]

/-- A dispatched state whose stripped slots are separator-free yields a
successful construction. -/
theorem init_of_dispatch {i : DIDInput} {d0 : DIDState}
    (h : construct_dispatch ⟨[], []⟩ i = Except.ok d0)
    (hs : scopeSep ∉ d0.scope) (hn : scopeSep ∉ strip_trailing_slash d0.name) :
    DID.init i = Except.ok ⟨d0.scope, strip_trailing_slash d0.name⟩ := by
  rw [init_eq_ok_iff]
  exact ⟨construct_did_of_dispatch h, (is_valid_format_eq_true_iff _).mpr ⟨hs, hn⟩⟩

/-- A dispatch error makes the whole construction fail. -/
theorem init_error_of_dispatch_error {i : DIDInput} {e : String}
    (h : construct_dispatch ⟨[], []⟩ i = Except.error e) :
    isOkD (DID.init i) = false := by
  unfold DID.init
  rw [construct_did_of_dispatch_error h]
  rfl

/-- Every successful construction factors through a dispatched state. -/
theorem construct_did_ok_elim {i : DIDInput} {d : DIDState}
    (h : construct_did ⟨[], []⟩ i = Except.ok d) :
    ∃ d0, construct_dispatch ⟨[], []⟩ i = Except.ok d0 ∧
      d = ⟨d0.scope, strip_trailing_slash d0.name⟩ := by
  unfold construct_did at h
  cases hc : construct_dispatch ⟨[], []⟩ i with
  | error e =>
      rw [hc] at h
      exact absurd h (by simp)
  | ok d0 =>
      rw [hc] at h
      injection h with h
      exact ⟨d0, rfl, h.symm⟩

/-- On a string without the separator, the string path reduces to the
implicit-scope test. -/
theorem did_from_str_no_sep (s : PyStr) (hnone : splitFirst scopeSep s = none) :
    did_from_str ⟨[], []⟩ s =
      if has_scope (update_implicit_scope ⟨[], s⟩) then
        Except.ok (update_implicit_scope ⟨[], s⟩)
      else Except.error "Object construction from non-splitable string is ambigious" := by
  unfold did_from_str
  rw [hnone]

/-- The dictionary path in closed form: keep the supplied slots when
the resolved scope is non-empty, otherwise resolve the implicit scope
of the supplied name. -/
theorem did_from_dict_eq (m : DIDDict) :
    did_from_dict ⟨[], []⟩ m =
      if m.scopeVal.getD [] = [] then
        update_implicit_scope ⟨[], m.nameVal.getD []⟩
      else ⟨m.scopeVal.getD [], m.nameVal.getD []⟩ := by
  by_cases hs : m.scopeVal.getD [] = []
  · have hf : has_scope (⟨m.scopeVal.getD [], m.nameVal.getD []⟩ : DIDState) = false :=
      (has_scope_eq_false_iff _).mpr hs
    rw [if_pos hs]
    show (if has_scope (⟨m.scopeVal.getD [], m.nameVal.getD []⟩ : DIDState) then
            (⟨m.scopeVal.getD [], m.nameVal.getD []⟩ : DIDState)
          else update_implicit_scope ⟨m.scopeVal.getD [], m.nameVal.getD []⟩) =
        update_implicit_scope ⟨[], m.nameVal.getD []⟩
    rw [hf, hs]
    rfl
  · have ht : has_scope (⟨m.scopeVal.getD [], m.nameVal.getD []⟩ : DIDState) = true :=
      (has_scope_eq_true_iff _).mpr hs
    rw [if_neg hs]
    show (if has_scope (⟨m.scopeVal.getD [], m.nameVal.getD []⟩ : DIDState) then
            (⟨m.scopeVal.getD [], m.nameVal.getD []⟩ : DIDState)
          else update_implicit_scope ⟨m.scopeVal.getD [], m.nameVal.getD []⟩) =
        ⟨m.scopeVal.getD [], m.nameVal.getD []⟩
    rw [ht]
    rfl

/-- C1 counterexample: the round-trip claim fails as stated. The valid
identifier with scope a and name b-slash, produced from the string
a:b-slash-slash, renders to a:b-slash, and reconstruction strips the
slash again, yielding a different identifier; moreover for the valid
identifier with scope a and empty name the reconstruction does not even
succeed, since its rendering a has no separator and no recognised
implicit prefix. -/
theorem C1_counterexample :
    DID.init (DIDInput.str "a:b//".data) = Except.ok ⟨"a".data, "b/".data⟩ ∧
    DID.init (DIDInput.str (did_str ⟨"a".data, "b/".data⟩)) =
      Except.ok ⟨"a".data, "b".data⟩ ∧
    did_eq ⟨"a".data, "b".data⟩ ⟨"a".data, "b/".data⟩ = false ∧
    DID.init (DIDInput.dict ⟨some "a".data, none⟩) = Except.ok ⟨"a".data, []⟩ ∧
    isOkD (DID.init (DIDInput.str (did_str ⟨"a".data, []⟩))) = false :=
  ⟨rfl, rfl, rfl, rfl, rfl⟩

/-- C1 (amended): for every successfully constructed identifier whose
scope and name are both non-empty and whose name does not end in a
slash, construction from the canonical string rendering succeeds and
returns the identical identifier. -/
theorem C1_round_trip_amended (i : DIDInput) (d : DIDState)
    (h : DID.init i = Except.ok d) (hs : d.scope ≠ []) (hn : d.name ≠ [])
    (hsl : endsWithChar '/' d.name = false) :
    DID.init (DIDInput.str (did_str d)) = Except.ok d := by
  obtain ⟨hvs, hvn⟩ := valid_of_init h
  have hd : construct_dispatch ⟨[], []⟩ (DIDInput.str (did_str d)) =
      Except.ok ⟨d.scope, d.name⟩ := by
    show did_from_str ⟨[], []⟩ (did_str d) = Except.ok ⟨d.scope, d.name⟩
    rw [did_str_both d hs hn]
    unfold did_from_str
    rw [splitFirst_append scopeSep d.scope d.name hvs]
  have := init_of_dispatch hd hvs (by
    rw [strip_trailing_slash_of_not_ends d.name hsl]
    exact hvn)
  rw [strip_trailing_slash_of_not_ends d.name hsl] at this
  exact this

/-- C1 witness: the round-trip theorem applied to the identifier built
from a:b. -/
theorem C1_witness :
    DID.init (DIDInput.str (did_str ⟨"a".data, "b".data⟩)) =
      Except.ok ⟨"a".data, "b".data⟩ :=
  C1_round_trip_amended (DIDInput.str "a:b".data) ⟨"a".data, "b".data⟩ rfl
    (by decide) (by decide) rfl

/-- C2 counterexample: two successfully constructed identifiers, one
with scope a and empty name and one with empty scope and name a, have
the same canonical rendering a but are not equal. -/
theorem C2_counterexample :
    DID.init (DIDInput.dict ⟨some "a".data, none⟩) = Except.ok ⟨"a".data, []⟩ ∧
    DID.init (DIDInput.dict ⟨none, some "a".data⟩) = Except.ok ⟨[], "a".data⟩ ∧
    did_str ⟨"a".data, []⟩ = did_str ⟨[], "a".data⟩ ∧
    did_eq ⟨"a".data, []⟩ ⟨[], "a".data⟩ = false :=
  ⟨rfl, rfl, rfl, rfl⟩

/-- C2 (amended): for successfully constructed identifiers that agree
on whether the name is empty, equality holds exactly when the canonical
string renderings are equal. -/
theorem C2_eq_iff_amended (i1 i2 : DIDInput) (d1 d2 : DIDState)
    (h1 : DID.init i1 = Except.ok d1) (h2 : DID.init i2 = Except.ok d2)
    (hagree : d1.name = [] ↔ d2.name = []) :
    did_eq d1 d2 = true ↔ did_str d1 = did_str d2 := by
  obtain ⟨v1s, v1n⟩ := valid_of_init h1
  obtain ⟨v2s, v2n⟩ := valid_of_init h2
  rw [did_eq_eq_true_iff]
  constructor
  · rintro ⟨hs, hn⟩
    have hd : d1 = d2 := by
      cases d1
      cases d2
      simp only [DIDState.mk.injEq]
      exact ⟨hs, hn⟩
    rw [hd]
  · intro hstr
    by_cases hn1 : d1.name = []
    · have hn2 : d2.name = [] := hagree.mp hn1
      rw [did_str_of_name_nil d1 hn1, did_str_of_name_nil d2 hn2] at hstr
      exact ⟨hstr, hn1.trans hn2.symm⟩
    · have hn2 : d2.name ≠ [] := fun h => hn1 (hagree.mpr h)
      by_cases hs1 : d1.scope = []
      · by_cases hs2 : d2.scope = []
        · rw [did_str_of_scope_nil d1 hs1, did_str_of_scope_nil d2 hs2] at hstr
          exact ⟨hs1.trans hs2.symm, hstr⟩
        · exfalso
          rw [did_str_of_scope_nil d1 hs1, did_str_both d2 hs2 hn2] at hstr
          apply v1n
          rw [hstr]
          simp [List.mem_append]
      · by_cases hs2 : d2.scope = []
        · exfalso
          rw [did_str_both d1 hs1 hn1, did_str_of_scope_nil d2 hs2] at hstr
          apply v2n
          rw [← hstr]
          simp [List.mem_append]
        · rw [did_str_both d1 hs1 hn1, did_str_both d2 hs2 hn2] at hstr
          exact append_sep_inj v1s v2s hstr

/-- C2 witness: the equality criterion applied to two copies of the
identifier built from a:b. -/
theorem C2_witness :
    did_eq ⟨"a".data, "b".data⟩ ⟨"a".data, "b".data⟩ = true ↔
      did_str ⟨"a".data, "b".data⟩ = did_str ⟨"a".data, "b".data⟩ :=
  C2_eq_iff_amended (DIDInput.str "a:b".data) (DIDInput.str "a:b".data)
    ⟨"a".data, "b".data⟩ ⟨"a".data, "b".data⟩ rfl rfl (by decide)

/-- C3 counterexample: reconstruction from an existing identifier is
not always identical. The identifier built from a:b-slash-slash has
name b-slash; constructing from that identifier strips one more
trailing slash, giving name b. -/
theorem C3_counterexample :
    DID.init (DIDInput.str "a:b//".data) = Except.ok ⟨"a".data, "b/".data⟩ ∧
    DID.init (DIDInput.did ⟨"a".data, "b/".data⟩) = Except.ok ⟨"a".data, "b".data⟩ ∧
    (⟨"a".data, "b".data⟩ : DIDState) ≠ ⟨"a".data, "b/".data⟩ :=
  ⟨rfl, rfl, by decide⟩

/-- C3 (amended): the DID-object path copies scope and name verbatim
with no resolution, and for every successfully constructed identifier
whose name does not end in a slash the full reconstruction returns the
identical identifier. -/
theorem C3_copy_amended (i : DIDInput) (d : DIDState)
    (h : DID.init i = Except.ok d) (hsl : endsWithChar '/' d.name = false) :
    did_from_did_object ⟨[], []⟩ d = d ∧ DID.init (DIDInput.did d) = Except.ok d := by
  refine ⟨rfl, ?_⟩
  obtain ⟨hvs, hvn⟩ := valid_of_init h
  have hd : construct_dispatch ⟨[], []⟩ (DIDInput.did d) = Except.ok ⟨d.scope, d.name⟩ :=
    rfl
  have := init_of_dispatch hd hvs (by
    rw [strip_trailing_slash_of_not_ends d.name hsl]
    exact hvn)
  rw [strip_trailing_slash_of_not_ends d.name hsl] at this
  exact this

/-- C3 witness: reconstruction of the identifier built from a:b. -/
theorem C3_witness :
    did_from_did_object ⟨[], []⟩ ⟨"a".data, "b".data⟩ = ⟨"a".data, "b".data⟩ ∧
    DID.init (DIDInput.did ⟨"a".data, "b".data⟩) = Except.ok ⟨"a".data, "b".data⟩ :=
  C3_copy_amended (DIDInput.str "a:b".data) ⟨"a".data, "b".data⟩ rfl rfl

/-- C4: every successfully constructed identifier passes the validity
check, so neither slot contains the scope separator; and whenever the
constructor pipeline produces a state whose scope or name contains the
separator, the construction fails instead of returning an instance. -/
theorem C4_separator_invariant (i : DIDInput) (d : DIDState) :
    (DID.init i = Except.ok d →
       is_valid_format d = true ∧ scopeSep ∉ d.scope ∧ scopeSep ∉ d.name) ∧
    (construct_did ⟨[], []⟩ i = Except.ok d → is_valid_format d = false →
       isOkD (DID.init i) = false) := by
  constructor
  · intro h
    exact ⟨((init_eq_ok_iff i d).mp h).2, valid_of_init h⟩
  · intro hc hv
    unfold DID.init
    rw [hc]
    show isOkD (if is_valid_format d = true then Except.ok d
        else (Except.error "Object has invalid format after construction" :
          Except String DIDState)) = false
    rw [hv]
    rfl

/-- C4 witness: the invariant applied to the identifier built from a:b,
and the rejection applied to the string a:bc:d, whose name slot keeps a
separator. -/
theorem C4_witness :
    (is_valid_format ⟨"a".data, "b".data⟩ = true ∧
       scopeSep ∉ ("a".data : PyStr) ∧ scopeSep ∉ ("b".data : PyStr)) ∧
    isOkD (DID.init (DIDInput.str "a:bc:d".data)) = false :=
  ⟨(C4_separator_invariant (DIDInput.str "a:b".data) ⟨"a".data, "b".data⟩).1 rfl,
   (C4_separator_invariant (DIDInput.str "a:bc:d".data) ⟨"a".data, "bc:d".data⟩).2
     rfl rfl⟩

/-- C5: a trailing slash on the name is stripped exactly once after any
constructor path. Construction from a:b-slash gives name b and from
a:b-slash-slash gives name b-slash; stripping removes exactly one
appended slash, is the identity on names without a trailing slash, and
construction is dispatch followed by exactly this strip. -/
theorem C5_trailing_slash (i : DIDInput) (d0 : DIDState) (n : PyStr) :
    DID.init (DIDInput.str "a:b/".data) = Except.ok ⟨"a".data, "b".data⟩ ∧
    DID.init (DIDInput.str "a:b//".data) = Except.ok ⟨"a".data, "b/".data⟩ ∧
    strip_trailing_slash (n ++ ['/']) = n ∧
    (endsWithChar '/' n = false → strip_trailing_slash n = n) ∧
    (construct_dispatch ⟨[], []⟩ i = Except.ok d0 →
       construct_did ⟨[], []⟩ i = Except.ok ⟨d0.scope, strip_trailing_slash d0.name⟩) := by
  refine ⟨rfl, rfl, strip_trailing_slash_concat n, ?_, ?_⟩
  · exact strip_trailing_slash_of_not_ends n
  · exact construct_did_of_dispatch

/-- C5 witness: the strip lemmas applied to the names b-slash and b,
and the dispatch-then-strip equation applied to a DID-object input with
name b-slash-slash. -/
theorem C5_witness :
    strip_trailing_slash ("b/".data ++ ['/']) = "b/".data ∧
    strip_trailing_slash "b".data = "b".data ∧
    construct_did ⟨[], []⟩ (DIDInput.did ⟨"a".data, "b//".data⟩) =
      Except.ok ⟨"a".data, strip_trailing_slash "b//".data⟩ :=
  ⟨(C5_trailing_slash (DIDInput.did ⟨"a".data, "b//".data⟩)
      ⟨"a".data, "b//".data⟩ "b/".data).2.2.1,
   (C5_trailing_slash (DIDInput.did ⟨"a".data, "b//".data⟩)
      ⟨"a".data, "b//".data⟩ "b".data).2.2.2.1 rfl,
   (C5_trailing_slash (DIDInput.did ⟨"a".data, "b//".data⟩)
      ⟨"a".data, "b//".data⟩ "b".data).2.2.2.2 rfl⟩

/-- C6 counterexample: on the reachable name user, whose first segment
is recognised with count 2, the name has only one dot-separated
segment, and resolution sets scope to the join of that single segment
(the Python slice clamps), not of exactly two leading segments; a join
of exactly two separator-free segments would contain one dot, but the
resulting scope contains none. -/
theorem C6_counterexample :
    DID.init (DIDInput.str "user".data) = Except.ok ⟨"user".data, "user".data⟩ ∧
    update_implicit_scope ⟨[], "user".data⟩ = ⟨"user".data, "user".data⟩ ∧
    IMPLICIT_SCOPE_TO_LEN ((splitAll implicitSep "user".data).headD []) = 2 ∧
    (splitAll implicitSep "user".data).length = 1 ∧
    ("user".data : PyStr).count implicitSep = 0 :=
  ⟨rfl, rfl, rfl, rfl, rfl⟩

/-- C6 (amended): when the first segment is recognised with count k,
resolution sets scope to the dot-join of the first k segments under
Python slice semantics, which is exactly k segments whenever the name
has at least k of them, and never modifies the name; when the first
segment is unrecognised the state is unchanged, so the scope stays
empty; construction from user.jdoe.dataset yields scope user.jdoe with
the name unchanged. -/
theorem C6_implicit_scope_amended (d : DIDState) (k : Nat)
    (hk : IMPLICIT_SCOPE_TO_LEN ((splitAll implicitSep d.name).headD []) = k) :
    (0 < k → update_implicit_scope d =
       ⟨joinChar implicitSep ((splitAll implicitSep d.name).take k), d.name⟩) ∧
    (k = 0 → update_implicit_scope d = d) ∧
    (k ≤ (splitAll implicitSep d.name).length →
       ((splitAll implicitSep d.name).take k).length = k) ∧
    DID.init (DIDInput.str "user.jdoe.dataset".data) =
      Except.ok ⟨"user.jdoe".data, "user.jdoe.dataset".data⟩ := by
  refine ⟨?_, ?_, ?_, rfl⟩
  · intro hpos
    unfold update_implicit_scope
    rw [hk, if_pos hpos]
  · intro h0
    unfold update_implicit_scope
    rw [hk, h0, if_neg (Nat.lt_irrefl 0)]
  · intro hle
    rw [List.length_take]
    exact Nat.min_eq_left hle

/-- C6 witness: resolution applied to the name user.jdoe.dataset. -/
theorem C6_witness :
    update_implicit_scope ⟨[], "user.jdoe.dataset".data⟩ =
      ⟨"user.jdoe".data, "user.jdoe.dataset".data⟩ :=
  ((C6_implicit_scope_amended ⟨[], "user.jdoe.dataset".data⟩ 2 rfl).1
    (by decide)).trans (by decide)

/-- C7: construction from a string without the separator makes the
whole string the name, resolves the implicit scope, and fails exactly
when resolution leaves the scope empty (when it succeeds, the result is
the resolved scope with the whole string as name, up to the trailing
slash strip); a string of the form a, separator, b with no separator in
a splits at that first occurrence into scope a and name b. -/
theorem C7_string_paths (s a b : PyStr) :
    (splitFirst scopeSep s = none →
       (isOkD (DID.init (DIDInput.str s)) = true ↔
          (update_implicit_scope ⟨[], s⟩).scope ≠ []) ∧
       (∀ d, DID.init (DIDInput.str s) = Except.ok d →
          d = ⟨(update_implicit_scope ⟨[], s⟩).scope, strip_trailing_slash s⟩)) ∧
    (scopeSep ∉ a → s = a ++ scopeSep :: b →
       did_from_str ⟨[], []⟩ s = Except.ok ⟨a, b⟩) := by
  constructor
  · intro hnone
    have hcol : scopeSep ∉ s := (splitFirst_eq_none_iff scopeSep s).mp hnone
    have hus : scopeSep ∉ (update_implicit_scope ⟨[], s⟩).scope :=
      update_implicit_scope_scope_no_sep ⟨[], s⟩ hcol (by simp)
    have hun : (update_implicit_scope ⟨[], s⟩).name = s :=
      update_implicit_scope_name ⟨[], s⟩
    by_cases husc : (update_implicit_scope ⟨[], s⟩).scope = []
    · have hf : has_scope (update_implicit_scope ⟨[], s⟩) = false :=
        (has_scope_eq_false_iff _).mpr husc
      have hdisp : construct_dispatch ⟨[], []⟩ (DIDInput.str s) =
          Except.error "Object construction from non-splitable string is ambigious" := by
        show did_from_str ⟨[], []⟩ s = _
        rw [did_from_str_no_sep s hnone, hf]
        rfl
      have herr := init_error_of_dispatch_error hdisp
      constructor
      · constructor
        · intro hok
          rw [herr] at hok
          exact absurd hok (by simp)
        · intro hsc
          exact absurd husc hsc
      · intro d hd
        rw [hd] at herr
        exact absurd herr (by simp [isOkD])
    · have ht : has_scope (update_implicit_scope ⟨[], s⟩) = true :=
        (has_scope_eq_true_iff _).mpr husc
      have hdisp : construct_dispatch ⟨[], []⟩ (DIDInput.str s) =
          Except.ok (update_implicit_scope ⟨[], s⟩) := by
        show did_from_str ⟨[], []⟩ s = _
        rw [did_from_str_no_sep s hnone, ht]
        rfl
      have hstripn : scopeSep ∉ strip_trailing_slash (update_implicit_scope ⟨[], s⟩).name := by
        rw [hun]
        intro hm
        exact hcol (mem_strip_trailing_slash s scopeSep hm)
      have hinit := init_of_dispatch hdisp hus hstripn
      rw [hun] at hinit
      constructor
      · constructor
        · intro _
          exact husc
        · intro _
          rw [hinit]
          rfl
      · intro d hd
        rw [hinit] at hd
        injection hd with hd
        exact hd.symm
  · intro ha hsab
    unfold did_from_str
    rw [hsab, splitFirst_append scopeSep a b ha]

/-- C7 witness: the separator-free branch applied to the resolvable
string user.jdoe.dataset, and the split branch applied to a:b:c, which
splits only at the first separator. -/
theorem C7_witness :
    isOkD (DID.init (DIDInput.str "user.jdoe.dataset".data)) = true ∧
    did_from_str ⟨[], []⟩ "a:b:c".data = Except.ok ⟨"a".data, "b:c".data⟩ :=
  ⟨(((C7_string_paths "user.jdoe.dataset".data [] []).1 rfl).1).mpr (by decide),
   (C7_string_paths "a:b:c".data "a".data "b:c".data).2 (by decide) (by decide)⟩

/-- C8 counterexample: implicit resolution on the mapping path is not
triggered by key absence alone. With the scope key present but holding
the empty string, and name user.x, resolution still runs and the
constructed scope is user.x rather than the supplied empty value. -/
theorem C8_counterexample :
    (DIDDict.mk (some []) (some "user.x".data)).scopeVal = some [] ∧
    DID.init (DIDInput.dict ⟨some [], some "user.x".data⟩) =
      Except.ok ⟨"user.x".data, "user.x".data⟩ ∧
    ("user.x".data : PyStr) ≠ [] :=
  ⟨rfl, rfl, by decide⟩

/-- C8 (amended): the mapping path reads scope and name from the two
keys with empty-string defaults, and attempts implicit-scope resolution
exactly when the resolved scope value is empty, which happens when the
key is absent and also when it is present with an empty value. -/
theorem C8_dict_amended (m : DIDDict) :
    (did_from_dict ⟨[], []⟩ m).name = m.nameVal.getD [] ∧
    (m.scopeVal.getD [] ≠ [] →
       did_from_dict ⟨[], []⟩ m = ⟨m.scopeVal.getD [], m.nameVal.getD []⟩) ∧
    (m.scopeVal.getD [] = [] →
       did_from_dict ⟨[], []⟩ m = update_implicit_scope ⟨[], m.nameVal.getD []⟩) ∧
    (m.scopeVal = none → m.scopeVal.getD [] = []) := by
  refine ⟨?_, ?_, ?_, ?_⟩
  · rw [did_from_dict_eq]
    by_cases hs : m.scopeVal.getD [] = []
    · rw [if_pos hs, update_implicit_scope_name]
    · rw [if_neg hs]
  · intro hs
    rw [did_from_dict_eq, if_neg hs]
  · intro hs
    rw [did_from_dict_eq, if_pos hs]
  · intro hs
    rw [hs]
    rfl

/-- C8 witness: the resolution branch applied to a mapping with the
scope key absent and name user.x. -/
theorem C8_witness :
    did_from_dict ⟨[], []⟩ ⟨none, some "user.x".data⟩ =
      update_implicit_scope ⟨[], "user.x".data⟩ :=
  (C8_dict_amended ⟨none, some "user.x".data⟩).2.2.1 rfl

/-- C9: for every successfully constructed identifier d and raw string
s, d compares equal to s exactly when s is the canonical rendering of
d; the hash of d is by definition the string hash of its canonical
rendering; and concretely, the identifier built from a:b hashes like
the string a:b and compares equal to it. -/
theorem C9_str_eq_and_hash (i : DIDInput) (d : DIDState) (s : PyStr)
    (_h : DID.init i = Except.ok d) :
    (did_eq_str d s = true ↔ did_str d = s) ∧
    did_hash d = str_hash (did_str d) ∧
    DID.init (DIDInput.str "a:b".data) = Except.ok ⟨"a".data, "b".data⟩ ∧
    did_hash ⟨"a".data, "b".data⟩ = str_hash "a:b".data ∧
    did_eq_str ⟨"a".data, "b".data⟩ "a:b".data = true := by
  refine ⟨?_, rfl, rfl, rfl, rfl⟩
  simp [did_eq_str]

/-- C9 witness: the string comparison criterion applied to the
identifier built from x:y. -/
theorem C9_witness :
    did_eq_str ⟨"x".data, "y".data⟩ "x:y".data = true :=
  ((C9_str_eq_and_hash (DIDInput.str "x:y".data) ⟨"x".data, "y".data⟩
      "x:y".data rfl).1).mpr rfl

/-- C10: with zero positional and zero keyword arguments the normalised
input is the empty mapping, construction succeeds with two empty slots,
and the canonical rendering is the empty string; more generally the
dictionary path never enforces non-emptiness of either field: a
separator-free scope with no name, or a separator-free name with no
scope, always constructs successfully. -/
theorem C10_empty_construction (s n : PyStr) :
    DID.init (parse_args_zero_positional none ⟨none, none⟩) = Except.ok ⟨[], []⟩ ∧
    did_str ⟨[], []⟩ = [] ∧
    (scopeSep ∉ s → isOkD (DID.init (DIDInput.dict ⟨some s, none⟩)) = true) ∧
    (scopeSep ∉ n → isOkD (DID.init (DIDInput.dict ⟨none, some n⟩)) = true) := by
  refine ⟨rfl, rfl, ?_, ?_⟩
  · intro hs
    by_cases hnil : s = []
    · subst hnil
      rfl
    · have hd : did_from_dict ⟨[], []⟩ ⟨some s, none⟩ = ⟨s, []⟩ := by
        rw [did_from_dict_eq]
        show (if s = [] then _ else _) = _
        rw [if_neg hnil]
        rfl
      have hdisp : construct_dispatch ⟨[], []⟩ (DIDInput.dict ⟨some s, none⟩) =
          Except.ok ⟨s, []⟩ := by
        show Except.ok (did_from_dict ⟨[], []⟩ ⟨some s, none⟩) = _
        rw [hd]
      rw [init_of_dispatch hdisp hs (by simp [strip_trailing_slash, endsWithChar])]
      rfl
  · intro hn
    have hd : did_from_dict ⟨[], []⟩ ⟨none, some n⟩ =
        update_implicit_scope ⟨[], n⟩ := by
      rw [did_from_dict_eq]
      rfl
    have hus : scopeSep ∉ (update_implicit_scope ⟨[], n⟩).scope :=
      update_implicit_scope_scope_no_sep ⟨[], n⟩ hn (by simp)
    have hun : (update_implicit_scope ⟨[], n⟩).name = n :=
      update_implicit_scope_name ⟨[], n⟩
    have hdisp : construct_dispatch ⟨[], []⟩ (DIDInput.dict ⟨none, some n⟩) =
        Except.ok (update_implicit_scope ⟨[], n⟩) := by
      show Except.ok (did_from_dict ⟨[], []⟩ ⟨none, some n⟩) = _
      rw [hd]
    have hstripn : scopeSep ∉ strip_trailing_slash (update_implicit_scope ⟨[], n⟩).name := by
      rw [hun]
      intro hm
      exact hn (mem_strip_trailing_slash n scopeSep hm)
    rw [init_of_dispatch hdisp hus hstripn]
    rfl

/-- C10 witness: the non-emptiness clauses applied to the scope a and
to the name n.x. -/
theorem C10_witness :
    isOkD (DID.init (DIDInput.dict ⟨some "a".data, none⟩)) = true ∧
    isOkD (DID.init (DIDInput.dict ⟨none, some "n.x".data⟩)) = true :=
  ⟨(C10_empty_construction "a".data "n.x".data).2.2.1 (by decide),
   (C10_empty_construction "a".data "n.x".data).2.2.2 (by decide)⟩
